import Mathlib

/-!
Verification of the KiAuto repository: a shallow embedding of the PCB
layer-file parsing and configuration generation in
`src/pcbnew_print_layers.py`, and of the process/session management and
readiness-polling logic in `kicad_auto/ui_automation.py`, together with
theorems settling the behavioural claims about them.
-/

namespace KiAuto

/-- A line of text from a file, as a list of characters.  The trailing
newline produced by Python file iteration is stripped; none of the
patterns modelled below can distinguish a line from the same line with a
trailing newline (Python `$` matches before a final newline). -/
abbrev Line := List Char

/-- Python's regex `\s` whitespace class (the ASCII part, which is all the
inputs here can contain). -/
def isPySpace (c : Char) : Bool :=
  c = ' ' || c = '\t' || c = '\n' || c = '\r' || c = '\x0b' || c = '\x0c'

/-- Decimal value of the digit string captured by the `(\d+)` group, as
computed by `int(res[0])`. -/
def digitsVal (ds : List Char) : Nat :=
  ds.foldl (fun acc c => 10 * acc + (c.toNat - '0'.toNat)) 0

/-- The part of the pattern `\((\d+)\s+(\S+)` after any leading whitespace:
a literal `(`, one or more digits (first group), one or more whitespace
characters, one or more non-whitespace characters (second group, maximal). -/
def layerGroups (l : Line) : Option (Nat × Line) :=
  match l with
  | c :: r1 =>
    if c = '(' then
      let ds := r1.takeWhile Char.isDigit
      if ds.isEmpty then none
      else
        let r2 := r1.dropWhile Char.isDigit
        if (r2.takeWhile isPySpace).isEmpty then none
        else
          let r3 := r2.dropWhile isPySpace
          let nm := r3.takeWhile (fun c => !isPySpace c)
          if nm.isEmpty then none else some (digitsVal ds, nm)
    else none
  | [] => none

/-- `re.match('\s+\((\d+)\s+(\S+)', line)` from the layer-collecting loop
(pcbnew_print_layers.py line 199): the line must START with one or more
whitespace characters, then `(`, digits, whitespace, and a name; returns
the captured (index, name) groups. -/
def matchLayerLine (l : Line) : Option (Nat × Line) :=
  if (l.takeWhile isPySpace).isEmpty then none
  else layerGroups (l.dropWhile isPySpace)

/-- `re.search('^\s+\)$', line)` (line 205): one or more whitespace
characters followed by a single `)` at end of line. -/
def isCloseLine (l : Line) : Bool :=
  !(l.takeWhile isPySpace).isEmpty && l.dropWhile isPySpace == [')']

/-- `re.search('\s+\(layers', line)` (line 209): somewhere in the line, a
whitespace character directly followed by the text `(layers`. -/
def isLayersOpen : Line → Bool
  | [] => false
  | c :: r => (isPySpace c && ("(layers").data.isPrefixOf r) || isLayersOpen r

/-- The layer-collecting loop of `__main__` (lines 194-211), processing the
file lines in order with the `collect_layers` flag.  The 50-slot
`layer_names` list starts as all `'-'`.  `none` models the uncaught
`IndexError` raised by `layer_names[int(res[0])]=res[1]` when the captured
index is out of range (the run aborts there). -/
def parseLayersLoop : List Line → Bool → List Line → Option (List Line)
  | [], _, names => some names
  | line :: rest, collect, names =>
    if collect then
      match matchLayerLine line with
      | some e =>
        if e.1 < names.length then
          parseLayersLoop rest true (names.set e.1 e.2)
        else none
      | none =>
        if isCloseLine line then some names
        else parseLayersLoop rest true names
    else
      if isLayersOpen line then parseLayersLoop rest true names
      else parseLayersLoop rest false names

/-- The complete layer-name parse over the PCB file's lines
(`layer_names=['-']*50` followed by the loop). -/
def parseLayers (lines : List Line) : Option (List Line) :=
  parseLayersLoop lines false (List.replicate 50 (("-").data))

/-- The lines the loop scans while `collect_layers` is true: everything
after the first line opening the layers block, up to (excluding) the first
closing line. -/
def blockOf (lines : List Line) : List Line :=
  match lines.dropWhile (fun l => !isLayersOpen l) with
  | [] => []
  | _ :: rest => rest.takeWhile (fun l => !isCloseLine l)

/-- The (index, name) pairs contributed by the layer lines of the block, in
file order. -/
def entriesOf (lines : List Line) : List (Nat × Line) :=
  (blockOf lines).filterMap matchLayerLine

/-- Folding a list of (index, name) entries into a name table by repeated
`layer_names[index] = name` assignment. -/
def applyEntries (es : List (Nat × Line)) (names : List Line) : List Line :=
  es.foldl (fun ns e => ns.set e.1 e.2) names

/-- The last entry of the list whose index is `i`, if any (the assignment
that wins when several block lines share an index). -/
def lastEntryFor : List (Nat × Line) → Nat → Option (Nat × Line)
  | [], _ => none
  | e :: es, i =>
    match lastEntryFor es i with
    | some e2 => some e2
    | none => if e.1 = i then some e else none

example : matchLayerLine ("    (0 F.Cu signal)").data = some (0, ("F.Cu").data) := by decide
example : matchLayerLine ("(0 F.Cu signal)").data = none := by decide
example : isCloseLine ("  )").data = true := by decide
example : isCloseLine (")").data = false := by decide
example : isLayersOpen ("  (layers").data = true := by decide
example : isLayersOpen ("(layers").data = false := by decide

/-- The spec claim's own reading of a layer line (`(<index> <name> ...)`,
with no requirement of leading whitespace), used only to compare the claim
against the code: optional whitespace, then `(`, digits, whitespace, name. -/
def claimLayerLine (l : Line) : Option (Nat × Line) :=
  layerGroups (l.dropWhile isPySpace)

/-- Whether the text `(layers` occurs anywhere in the line (the claim's
notion of the opening line). -/
def claimContainsLayers : Line → Bool
  | [] => false
  | c :: r => ("(layers").data.isPrefixOf (c :: r) || claimContainsLayers r

/-- The spec claim's own reading of the layers block, used only to compare
the claim against the code: the lines strictly between the first line
containing `(layers` and the next line containing only `)`, with the
entries given by `claimLayerLine`. -/
def claimLayerEntries (lines : List Line) : List (Nat × Line) :=
  (match lines.dropWhile (fun l => !claimContainsLayers l) with
   | [] => []
   | _ :: rest => rest.takeWhile (fun l => l ≠ (")").data)).filterMap claimLayerLine

/-! ### Configuration generation (`__main__`, lines 219-242) -/

/-- The message printed by `print('Unknown layer %s' % layer)` (line 238). -/
def unknownMsg (layer : Line) : Line := ("Unknown layer ").data ++ layer

/-- One step of the request-marking loop (lines 234-238):
`used_layers[layer_names.index(layer)]=1` guarded by a bare `except:` that
prints the unknown-layer message (covering both `ValueError` from `index`
and any `IndexError` from the assignment). -/
def markStep (layer_names : List Line) (acc : List Nat × List Line) (layer : Line) :
    List Nat × List Line :=
  match layer_names.findIdx? (fun n => n == layer) with
  | some i =>
    if i < acc.1.length then (acc.1.set i 1, acc.2)
    else (acc.1, acc.2 ++ [unknownMsg layer])
  | none => (acc.1, acc.2 ++ [unknownMsg layer])

/-- The full marking loop: starting from `used_layers=[0]*50`, process the
requested layer names in order; returns the 50 enable flags together with
the list of printed unknown-layer messages. -/
def markUsed (layer_names : List Line) (layers : List Line) : List Nat × List Line :=
  layers.foldl (markStep layer_names) (List.replicate 50 0, [])

/-- The fixed print-related settings written before the `PlotLayer` flags
(lines 221-231), one line per `write` (each write ends with a newline,
stripped here). -/
def configHeader : List Line :=
  [("canvas_type=2").data, ("RefillZonesBeforeDrc=1").data,
   ("PcbFrameFirstRunShown=1").data, ("PrintMonochrome=0").data,
   ("PrintPageFrame=1").data, ("PrintPadsDrillOpt=2").data,
   ("PrintSinglePage=1").data]

/-- The line written by `'PlotLayer_%d=%d\n' % (x,used_layers[x])`. -/
def plotLine (x v : Nat) : Line :=
  ("PlotLayer_").data ++ (toString x).data ++ ("=").data ++ (toString v).data

/-- All lines of the generated configuration file: the fixed header
followed by one `PlotLayer_x` line for each `x in range(0,50)`
(lines 240-241). -/
def configLines (used : List Nat) : List Line :=
  configHeader ++ (List.range 50).map (fun x => plotLine x (used.getD x 0))

/-- The configuration file generated for a given PCB file content and
requested layer list (`none` when the layer parse aborts first). -/
def generatedConfig (lines : List Line) (layers : List Line) : Option (List Line) :=
  (parseLayers lines).map (fun names => configLines (markUsed names layers).1)

/-! ### Session lifecycle (`recorded_xvfb` and the nested context managers,
ui_automation.py lines 115-179) -/

/-- Observable lifecycle events of a session: acquisition and release of
the virtual display (Xvfb), the VNC server, the window manager and the
recorder, the X-server readiness wait, and body activity. -/
inductive SEvent where
  | acqDisplay | waitX | acqVnc | acqWm | acqRec | bodyStep
  | relRec | relWm | relVnc | relDisplay
  deriving DecidableEq

/-- Event trace of `start_x11vnc` (lines 149-164): when enabled it spawns
the VNC server around the body and terminates it in the `finally` block
(so on normal and exceptional exit alike); otherwise it just yields. -/
def start_x11vnc_trace (do_it : Bool) (body : List SEvent) : List SEvent :=
  if do_it then SEvent.acqVnc :: (body ++ [SEvent.relVnc]) else body

/-- Event trace of `start_wm` (lines 115-129): when enabled it spawns the
window manager around the body and tears it down in the `finally` block;
otherwise it just yields. -/
def start_wm_trace (do_it : Bool) (body : List SEvent) : List SEvent :=
  if do_it then SEvent.acqWm :: (body ++ [SEvent.relWm]) else body

/-- Event trace of `start_record` (lines 132-146): when a video directory
is given it spawns the recorder around the body and terminates it in the
`finally` block; otherwise it just yields. -/
def start_record_trace (enabled : Bool) (body : List SEvent) : List SEvent :=
  if enabled then SEvent.acqRec :: (body ++ [SEvent.relRec]) else body

/-- Event trace of `recorded_xvfb` (lines 167-179): Xvfb outermost, then
`wait_xserver`, then the optional VNC server, window manager and recorder
nested in that order around the body.  Since every layer releases in a
`finally` block (or `with`-exit), the release suffix is emitted on every
exit path; an exceptional exit is represented by an arbitrary (truncated)
body trace. -/
def recorded_xvfb_trace (do_record do_x11vnc do_wm : Bool) (body : List SEvent) :
    List SEvent :=
  SEvent.acqDisplay :: SEvent.waitX ::
    (start_x11vnc_trace do_x11vnc (start_wm_trace do_wm (start_record_trace do_record body))
      ++ [SEvent.relDisplay])

/-- Whether an event is a teardown (release) event. -/
def isRelease : SEvent → Bool
  | SEvent.relRec => true
  | SEvent.relWm => true
  | SEvent.relVnc => true
  | SEvent.relDisplay => true
  | _ => false

/-- Whether an event is an acquisition event. -/
def isAcquire : SEvent → Bool
  | SEvent.acqDisplay => true
  | SEvent.acqVnc => true
  | SEvent.acqWm => true
  | SEvent.acqRec => true
  | _ => false

/-! ### Child-process shutdown (`PopenContext.__exit__`, lines 41-68, and
the per-component teardown code) -/

/-- Actions performed on a child process during shutdown. -/
inductive PAct where
  | terminate | wait3 | kill | wait10
  deriving DecidableEq

/-- Actions of `PopenContext.__exit__(type, ...)` (lines 41-68): when the
`with` block exited with an exception, `terminate` is sent; then the
parent waits up to 3 seconds; if the process is still alive after that, it
is killed and waited for up to 10 seconds.  (The spawned processes use
`DEVNULL`, so no stream-closing happens.)  `excType` tells whether an
exception is propagating; `aliveAfter3` whether the process outlives the
3-second wait. -/
def popenExitTrace (excType : Bool) (aliveAfter3 : Bool) : List PAct :=
  (if excType then [PAct.terminate] else []) ++ [PAct.wait3] ++
    (if aliveAfter3 then [PAct.kill, PAct.wait10] else [])

/-- Teardown actions for the window manager (lines 120-127): the `finally`
block runs `wm_proc.kill()` unconditionally — the comment says "Fluxbox
sometimes will ignore SIGTERM, we can just kill it" — and then the
`PopenContext` exit runs. -/
def wmTeardownTrace (excType aliveAfter3 : Bool) : List PAct :=
  PAct.kill :: popenExitTrace excType aliveAfter3

/-- Teardown actions for the recorder (lines 139-144): the `finally` block
runs `screencast_proc.terminate()`, then the `PopenContext` exit runs. -/
def recorderTeardownTrace (excType aliveAfter3 : Bool) : List PAct :=
  PAct.terminate :: popenExitTrace excType aliveAfter3

/-- Teardown actions for the VNC server (lines 154-162): the `finally`
block runs `x11vnc_proc.terminate()`, then the `PopenContext` exit runs. -/
def vncTeardownTrace (excType aliveAfter3 : Bool) : List PAct :=
  PAct.terminate :: popenExitTrace excType aliveAfter3

/-- Scans an action trace and checks that every `kill` is preceded
(somewhere earlier) by a `terminate`: the "graceful first, forceful only
as fallback" discipline the claim asserts. -/
def killOnlyAfterTermAux : List PAct → Bool → Bool
  | [], _ => true
  | PAct.kill :: r, seenTerm => seenTerm && killOnlyAfterTermAux r seenTerm
  | PAct.terminate :: r, _ => killOnlyAfterTermAux r true
  | _ :: r, seenTerm => killOnlyAfterTermAux r seenTerm

/-- Whether a trace only kills after having first asked for graceful
termination. -/
def killOnlyAfterTerm (t : List PAct) : Bool := killOnlyAfterTermAux t false

/-! ### Window selection (`wait_for_window`, lines 262-299) -/

/-- The selection made from the list of window ids returned by the window
search in one polling iteration (lines 273-276): `id = window_id[0]` when
exactly one id was returned, `id = window_id[1]` when more than one;
`none` models `id` staying unbound (empty search result, which the raising
`check_output` call makes unreachable). -/
def selectWindow (window_id : List Nat) : Option Nat :=
  let id0 : Option Nat := none
  let id1 : Option Nat := if window_id.length = 1 then window_id[0]? else id0
  let id2 : Option Nat := if 1 < window_id.length then window_id[1]? else id1
  id2

/-! ### Readiness polling (`wait_focused` lines 236-246, `wait_not_focused`
lines 249-259, `wait_for_window` lines 262-299) -/

/-- Outcome of a fixed-interval polling loop, counting the condition
probes performed and the 0.5-second sleeps taken. -/
inductive PollResult where
  | success (probes : Nat) (sleeps : Nat)
  | timedOut (probes : Nat) (sleeps : Nat)
  deriving DecidableEq

/-- The loop body `for i in range(iters): if cond(i): return; sleep(DELAY)`
followed by `raise`: `k` counts the probes (and sleeps) already performed. -/
def runPollAux (cond : Nat → Bool) : Nat → Nat → PollResult
  | 0, k => PollResult.timedOut k k
  | n + 1, k =>
    if cond k then PollResult.success (k + 1) k
    else runPollAux cond n (k + 1)

/-- The fixed poll interval `DELAY = 0.5` of all three waiting loops. -/
def DELAY : ℚ := 1 / 2

/-- The iteration count `int(timeout/DELAY)` of the polling loops (exact
for the arguments the program passes, since dividing by 0.5 is exact in
binary floating point and `int()` truncates the nonnegative result). -/
def itersFor (timeout : ℚ) : Nat := (⌊timeout / DELAY⌋).toNat

/-- A full polling loop run with the given timeout. -/
def runPoll (cond : Nat → Bool) (timeout : ℚ) : PollResult :=
  runPollAux cond (itersFor timeout) 0

/-- `wait_focused`: each probe reads the currently focused window id and
compares it with the wanted id. -/
def wait_focused_model (id : Nat) (focusAt : Nat → Nat) (timeout : ℚ) : PollResult :=
  runPoll (fun i => focusAt i == id) timeout

/-- `wait_not_focused`: each probe reads the currently focused window id
and succeeds when it differs from the given id. -/
def wait_not_focused_model (id : Nat) (focusAt : Nat → Nat) (timeout : ℚ) : PollResult :=
  runPoll (fun i => focusAt i != id) timeout

/-- `wait_for_window`: each probe runs the window search (`none` models
the `CalledProcessError` of a failed search, caught by the loop), selects
an id as in `selectWindow`, and succeeds when the selection exists and
differs from `skip_id`; otherwise the iteration falls through to the
sleep. -/
def wait_for_window_model (searchAt : Nat → Option (List Nat)) (skip_id : Nat)
    (timeout : ℚ) : PollResult :=
  runPoll
    (fun i =>
      match searchAt i with
      | some ids =>
        match selectWindow ids with
        | some sel => sel != skip_id
        | none => false
      | none => false)
    timeout

/-! ### Configuration backup and restore (`restore_config` lines 159-162,
`__main__` lines 213-217) -/

/-- File contents, as raw bytes. -/
abbrev Bytes := List Nat

/-- The two file-system locations the backup/restore logic touches:
`~/.config/kicad/pcbnew` (`config`) and
`~/.config/kicad/pcbnew.pre_print_layers` (`backup`); `none` means the
file does not exist. -/
structure ConfigFS where
  config : Option Bytes
  backup : Option Bytes
  deriving DecidableEq

/-- `os.rename(config_file, old_config_file)` (line 216): moves the
current configuration to the backup path; raises (`none`) if the
configuration file does not exist. -/
def backupStep (fs : ConfigFS) : Option ConfigFS :=
  match fs.config with
  | some c => some { config := none, backup := some c }
  | none => none

/-- Writing the generated configuration (lines 220-242). -/
def writeConfig (content : Bytes) (fs : ConfigFS) : ConfigFS :=
  { fs with config := some content }

/-- `restore_config` (lines 159-162): if the backup exists, remove the
configuration file and move the backup back into place; `none` models the
exception `os.remove` raises when the configuration file is absent. -/
def restore_config (fs : ConfigFS) : Option ConfigFS :=
  if fs.backup.isSome then
    match fs.config with
    | some _ => some { config := fs.backup, backup := none }
    | none => none
  else some fs

/-- Process exit: the `atexit`-registered `restore_config` handler runs on
every exit path — `raised` records whether the process is exiting because
of an uncaught exception, and does not influence the handler. -/
def processExit (raised : Bool) (fs : ConfigFS) : Option ConfigFS :=
  match raised with
  | true => restore_config fs
  | false => restore_config fs

/-! ## Lemmas about the layer-parsing loop -/

/-- A successfully matched layer pattern starts with `(`. -/
theorem layerGroups_head {l : Line} {e : Nat × Line} (h : layerGroups l = some e) :
    ∃ r, l = '(' :: r := by
  cases l with
  | nil => simp [layerGroups] at h
  | cons c r =>
    by_cases hc : c = '('
    · exact ⟨r, by rw [hc]⟩
    · simp [layerGroups, hc] at h

/-- A line matched as a layer line is never the closing line (after its
leading whitespace it starts with `(`, not `)`). -/
theorem matchLayerLine_not_close {l : Line} {e : Nat × Line}
    (h : matchLayerLine l = some e) : isCloseLine l = false := by
  unfold matchLayerLine at h
  by_cases hws : (l.takeWhile isPySpace).isEmpty
  · simp [hws] at h
  · simp only [hws, if_false] at h
    obtain ⟨r, hr⟩ := layerGroups_head h
    unfold isCloseLine
    rw [hr]
    simp [beq_eq_false_iff_ne]

/-- While `collect_layers` is true and all entry indices are in range, the
loop computes exactly the fold of the entries of the lines up to the first
closing line over the current table. -/
theorem loop_collect_eq (lines : List Line) :
    ∀ names : List Line,
      (∀ e ∈ (lines.takeWhile (fun l => !isCloseLine l)).filterMap matchLayerLine,
          e.1 < names.length) →
      parseLayersLoop lines true names =
        some (applyEntries
          ((lines.takeWhile (fun l => !isCloseLine l)).filterMap matchLayerLine) names) := by
  induction lines with
  | nil => intro names _; rfl
  | cons line rest ih =>
    intro names h
    cases hml : matchLayerLine line with
    | some e =>
      have hnc : isCloseLine line = false := matchLayerLine_not_close hml
      have htw : (line :: rest).takeWhile (fun l => !isCloseLine l) =
          line :: rest.takeWhile (fun l => !isCloseLine l) := by
        simp [List.takeWhile_cons, hnc]
      rw [htw] at h ⊢
      rw [List.filterMap_cons_some hml] at h ⊢
      have he : e.1 < names.length := h e (List.mem_cons_self e _)
      simp only [parseLayersLoop, hml, he, if_true]
      rw [ih (names.set e.1 e.2) (by simpa [List.length_set] using fun e' he' => h e' (List.mem_cons_of_mem _ he'))]
      rfl
    | none =>
      by_cases hc : isCloseLine line
      · have htw : (line :: rest).takeWhile (fun l => !isCloseLine l) = [] := by
          simp [List.takeWhile_cons, hc]
        rw [htw]
        simp only [parseLayersLoop, hml, hc, if_true]
        rfl
      · have htw : (line :: rest).takeWhile (fun l => !isCloseLine l) =
            line :: rest.takeWhile (fun l => !isCloseLine l) := by
          simp [List.takeWhile_cons, hc]
        rw [htw] at h ⊢
        rw [List.filterMap_cons_none hml] at h ⊢
        simp only [parseLayersLoop, hml, hc, if_false]
        exact ih names h

/-- While `collect_layers` is true, the loop aborts with an `IndexError`
exactly when some entry before the first closing line has an index out of
range of the current table. -/
theorem loop_collect_none_iff (lines : List Line) :
    ∀ names : List Line,
      (parseLayersLoop lines true names = none ↔
        ∃ e ∈ (lines.takeWhile (fun l => !isCloseLine l)).filterMap matchLayerLine,
          names.length ≤ e.1) := by
  induction lines with
  | nil => intro names; simp [parseLayersLoop]
  | cons line rest ih =>
    intro names
    cases hml : matchLayerLine line with
    | some e =>
      have hnc : isCloseLine line = false := matchLayerLine_not_close hml
      have htw : (line :: rest).takeWhile (fun l => !isCloseLine l) =
          line :: rest.takeWhile (fun l => !isCloseLine l) := by
        simp [List.takeWhile_cons, hnc]
      rw [htw, List.filterMap_cons_some hml]
      by_cases hlt : e.1 < names.length
      · simp only [parseLayersLoop, hml, hlt, if_true]
        rw [ih (names.set e.1 e.2)]
        simp only [List.length_set]
        constructor
        · rintro ⟨e', he', hle⟩
          exact ⟨e', List.mem_cons_of_mem _ he', hle⟩
        · rintro ⟨e', he', hle⟩
          rcases List.mem_cons.mp he' with rfl | hm
          · omega
          · exact ⟨e', hm, hle⟩
      · simp only [parseLayersLoop, hml, hlt, if_false]
        constructor
        · intro _
          exact ⟨e, List.mem_cons_self e _, by omega⟩
        · intro _; rfl
    | none =>
      by_cases hc : isCloseLine line
      · have htw : (line :: rest).takeWhile (fun l => !isCloseLine l) = [] := by
          simp [List.takeWhile_cons, hc]
        rw [htw]
        simp [parseLayersLoop, hml, hc]
      · have htw : (line :: rest).takeWhile (fun l => !isCloseLine l) =
            line :: rest.takeWhile (fun l => !isCloseLine l) := by
          simp [List.takeWhile_cons, hc]
        rw [htw, List.filterMap_cons_none hml]
        simp only [parseLayersLoop, hml, hc, if_false]
        exact ih names

/-- While `collect_layers` is still false, the loop skips lines until the
first one containing whitespace followed by `(layers`, then switches to
collecting. -/
theorem loop_skip_eq (lines : List Line) (names : List Line) :
    parseLayersLoop lines false names =
      match lines.dropWhile (fun l => !isLayersOpen l) with
      | [] => some names
      | _ :: rest => parseLayersLoop rest true names := by
  induction lines with
  | nil => rfl
  | cons line rest ih =>
    by_cases ho : isLayersOpen line
    · simp only [parseLayersLoop, ho, if_true, List.dropWhile_cons, Bool.not_true]
      rfl
    · simp only [parseLayersLoop, ho, if_false, List.dropWhile_cons, Bool.not_false]
      simpa [ho] using ih

/-- The whole layer parse, when no block entry has an out-of-range index,
succeeds and yields exactly the block entries folded over the initial
all-`'-'` table: lines outside the block contribute nothing. -/
theorem parseLayers_eq (lines : List Line)
    (h : ∀ e ∈ entriesOf lines, e.1 < 50) :
    parseLayers lines =
      some (applyEntries (entriesOf lines) (List.replicate 50 (("-").data))) := by
  unfold parseLayers entriesOf blockOf at *
  rw [loop_skip_eq]
  cases hd : lines.dropWhile (fun l => !isLayersOpen l) with
  | nil => rfl
  | cons l0 rest =>
    rw [hd] at h
    exact loop_collect_eq rest _ (by simpa using h)

/-- The whole layer parse aborts (with the uncaught `IndexError`) exactly
when some block entry has an index of 50 or more. -/
theorem parseLayers_none_iff (lines : List Line) :
    parseLayers lines = none ↔ ∃ e ∈ entriesOf lines, 50 ≤ e.1 := by
  unfold parseLayers entriesOf blockOf
  rw [loop_skip_eq]
  cases hd : lines.dropWhile (fun l => !isLayersOpen l) with
  | nil => simp
  | cons l0 rest =>
    rw [loop_collect_none_iff]
    simp [List.length_replicate]

/-- Folding entries never changes the length of the table. -/
theorem applyEntries_length (es : List (Nat × Line)) :
    ∀ init : List Line, (applyEntries es init).length = init.length := by
  induction es with
  | nil => intro init; rfl
  | cons e es ih =>
    intro init
    show (applyEntries es (init.set e.1 e.2)).length = init.length
    rw [ih, List.length_set]

/-- Slot `i` of the folded table holds the name of the last entry with
index `i`, and the initial content when no entry has index `i`. -/
theorem applyEntries_getElem? (es : List (Nat × Line)) :
    ∀ (init : List Line) (i : Nat), i < init.length →
      (applyEntries es init)[i]? =
        match lastEntryFor es i with
        | some e => some e.2
        | none => init[i]? := by
  induction es with
  | nil => intro init i _; rfl
  | cons e es ih =>
    intro init i hi
    show (applyEntries es (init.set e.1 e.2))[i]? = _
    rw [ih (init.set e.1 e.2) i (by rw [List.length_set]; exact hi)]
    show _ = (match lastEntryFor (e :: es) i with
      | some e2 => some e2.2
      | none => init[i]?)
    simp only [lastEntryFor]
    cases lastEntryFor es i with
    | some e2 => rfl
    | none =>
      by_cases hei : e.1 = i
      · subst hei
        simp only [if_pos rfl]
        exact List.getElem?_set_self (by exact hi)
      · simp only [if_neg hei]
        exact List.getElem?_set_ne hei

/-- An entry returned by `lastEntryFor` belongs to the list and has the
requested index. -/
theorem lastEntryFor_mem {es : List (Nat × Line)} {i : Nat} {e : Nat × Line}
    (h : lastEntryFor es i = some e) : e ∈ es ∧ e.1 = i := by
  induction es with
  | nil => simp [lastEntryFor] at h
  | cons e0 es ih =>
    simp only [lastEntryFor] at h
    cases hl : lastEntryFor es i with
    | some e2 =>
      rw [hl] at h
      obtain rfl : e2 = e := by simpa using h
      obtain ⟨hm, hi⟩ := ih hl
      exact ⟨List.mem_cons_of_mem _ hm, hi⟩
    | none =>
      rw [hl] at h
      by_cases hei : e0.1 = i
      · rw [if_pos hei] at h
        obtain rfl : e0 = e := by simpa using h
        exact ⟨List.mem_cons_self _ _, hei⟩
      · rw [if_neg hei] at h
        simp at h

/-- `lastEntryFor` finds nothing exactly when no entry has the requested
index. -/
theorem lastEntryFor_eq_none_iff {es : List (Nat × Line)} {i : Nat} :
    lastEntryFor es i = none ↔ ∀ e ∈ es, e.1 ≠ i := by
  induction es with
  | nil => simp [lastEntryFor]
  | cons e0 es ih =>
    simp only [lastEntryFor]
    cases hl : lastEntryFor es i with
    | some e2 =>
      simp only [reduceCtorEq, false_iff]
      obtain ⟨hm, hi⟩ := lastEntryFor_mem hl
      intro hall
      exact hall e2 (List.mem_cons_of_mem _ hm) hi
    | none =>
      rw [hl] at ih
      by_cases hei : e0.1 = i
      · simp only [if_pos hei, reduceCtorEq, false_iff]
        intro hall
        exact hall e0 (List.mem_cons_self _ _) hei
      · simp only [if_neg hei, List.mem_cons, true_iff]
        rintro e (rfl | hm)
        · exact hei
        · exact ih.mp rfl e hm

/-! ## Lemmas about the request-marking loop -/

/-- A found index is within the table; with the 50-slot table this means
the `used_layers` assignment never takes the `except` branch. -/
theorem findIdx?_lt_length {p : Line → Bool} {names : List Line} {i : Nat}
    (h : names.findIdx? p = some i) : i < names.length :=
  (List.findIdx?_eq_some_iff_findIdx_eq.mp h).1

/-- The messages printed by the marking loop are exactly one
unknown-layer message per requested name missing from the table, in
request order. -/
theorem markUsed_msgs_aux (names : List Line) (hlen : names.length = 50) :
    ∀ (reqs : List Line) (used : List Nat) (msgs : List Line), used.length = 50 →
      (reqs.foldl (markStep names) (used, msgs)).2 =
        msgs ++ (reqs.filter
          (fun q => (names.findIdx? (fun n => n == q)).isNone)).map unknownMsg := by
  intro reqs
  induction reqs with
  | nil => intro used msgs _; simp
  | cons q reqs ih =>
    intro used msgs hu
    rw [List.foldl_cons]
    cases hf : names.findIdx? (fun n => n == q) with
    | some i =>
      have hi : i < used.length := by
        rw [hu, ← hlen]; exact findIdx?_lt_length hf
      simp only [markStep, hf, hi, if_true]
      rw [ih (used.set i 1) msgs (by rw [List.length_set]; exact hu)]
      simp [List.filter_cons, hf]
    | none =>
      simp only [markStep, hf]
      rw [ih used (msgs ++ [unknownMsg q]) hu]
      simp [List.filter_cons, hf]

/-- A slot at which no requested name resolves keeps its initial flag. -/
theorem markUsed_fst_aux (names : List Line) (i : Nat) :
    ∀ (reqs : List Line) (used : List Nat) (msgs : List Line),
      (∀ q ∈ reqs, names.findIdx? (fun n => n == q) ≠ some i) →
      (reqs.foldl (markStep names) (used, msgs)).1[i]? = used[i]? := by
  intro reqs
  induction reqs with
  | nil => intro used msgs _; rfl
  | cons q reqs ih =>
    intro used msgs h
    rw [List.foldl_cons]
    cases hf : names.findIdx? (fun n => n == q) with
    | some j =>
      have hji : j ≠ i := by
        intro hji
        exact h q (List.mem_cons_self _ _) (hji ▸ hf)
      by_cases hj : j < used.length
      · simp only [markStep, hf, hj, if_true]
        rw [ih (used.set j 1) msgs (fun q' hq' => h q' (List.mem_cons_of_mem _ hq'))]
        exact List.getElem?_set_ne hji
      · simp only [markStep, hf, hj, if_false]
        exact ih used _ (fun q' hq' => h q' (List.mem_cons_of_mem _ hq'))
    | none =>
      simp only [markStep, hf]
      exact ih used _ (fun q' hq' => h q' (List.mem_cons_of_mem _ hq'))

/-! ## Claim C1 -/

/-- A three-line input on which the claim's description of the block
boundaries disagrees with the code: the second line contains only `)`
(the claim's closing line), but the code's closing pattern `^\s+\)$`
requires leading whitespace, so collection continues and the third line
still contributes an entry. -/
def c1cexLines : List Line := [(" (layers").data, (")").data, (" (5 X)").data]

/-- C1 counterexample: reading the claim literally, the block between the
`(layers` opening line and the line containing only `)` is empty, so the
mapping should contain no entries; the code, however, maps index 5 to the
name captured from the line after that closing line. -/
theorem c1_counterexample :
    claimLayerEntries c1cexLines = [] ∧
    parseLayers c1cexLines =
      some ((List.replicate 50 (("-").data)).set 5 (("X)").data)) ∧
    ((List.replicate 50 (("-").data)).set 5 (("X)").data))[5]? = some (("X)").data) :=
  ⟨by decide, by decide, by decide⟩

/-- C1 (amended): with the code's actual patterns — the opening line is
the first line containing whitespace directly followed by `(layers`, a
contributing layer line must begin with whitespace before
`(<index> <name>`, and the closing line is whitespace followed by a lone
`)` — and provided every block entry index is below 50, parsing succeeds
and slot `i` of the resulting mapping holds exactly the name of the last
block entry with index `i` (the placeholder `'-'` when there is none); no
line outside the block contributes anything. -/
theorem c1_layer_block_parsing (lines : List Line)
    (hidx : ∀ e ∈ entriesOf lines, e.1 < 50) (i : Nat) (hi : i < 50) :
    ∃ names, parseLayers lines = some names ∧
      names[i]? =
        some (((lastEntryFor (entriesOf lines) i).map Prod.snd).getD (("-").data)) := by
  refine ⟨_, parseLayers_eq lines hidx, ?_⟩
  rw [applyEntries_getElem? _ _ i (by rw [List.length_replicate]; exact hi)]
  cases lastEntryFor (entriesOf lines) i with
  | some e => rfl
  | none => rw [List.getElem?_replicate, if_pos hi]; rfl

/-- A small PCB file exercising the amended C1 statement. -/
def c1demoPcb : List Line :=
  [("(kicad_pcb").data, ("  (layers").data, ("    (0 F.Cu signal)").data,
   ("    (31 B.Cu signal)").data, ("  )").data, (")").data]

/-- Witness for C1 at a concrete file and index. -/
theorem c1_layer_block_parsing_witness :
    (∀ e ∈ entriesOf c1demoPcb, e.1 < 50) ∧ 31 < 50 ∧
      ∃ names, parseLayers c1demoPcb = some names ∧
        names[31]? =
          some (((lastEntryFor (entriesOf c1demoPcb) 31).map Prod.snd).getD (("-").data)) :=
  ⟨by decide, by decide, c1_layer_block_parsing c1demoPcb (by decide) 31 (by decide)⟩

/-! ## Claim C2 -/

/-- The PCB file the end-to-end claim describes: a layers block containing
exactly `(0 F.Cu signal)` and `(31 B.Cu signal)`. -/
def c2demoPcb : List Line :=
  [("(kicad_pcb").data, ("  (layers").data, ("    (0 F.Cu signal)").data,
   ("    (31 B.Cu signal)").data, ("  )").data, (")").data]

/-- C2: requesting `["F.Cu"]` against that file generates the fixed header
followed by exactly one `PlotLayer_x` line for each of the 50 slots, with
`PlotLayer_0=1` and `PlotLayer_x=0` for every other `x`. -/
theorem c2_end_to_end :
    generatedConfig c2demoPcb [("F.Cu").data] =
      some (configHeader ++
        (List.range 50).map (fun x => plotLine x (if x = 0 then 1 else 0))) := by
  decide

/-! ## Claim C3 -/

/-- C3: unknown requested layers never abort the marking loop (modelled by
it being a total function): each requested name absent from the table is
reported with one printed message per occurrence, in request order, and
every slot whose name is not among the requested names keeps its enable
flag at 0. -/
theorem c3_unknown_layer_requests (names reqs : List Line)
    (hlen : names.length = 50) :
    (markUsed names reqs).2 =
      (reqs.filter (fun q => (names.findIdx? (fun n => n == q)).isNone)).map unknownMsg ∧
    ∀ i : Nat, i < 50 → (∀ nm, names[i]? = some nm → nm ∉ reqs) →
      (markUsed names reqs).1[i]? = some 0 := by
  constructor
  · rw [markUsed, markUsed_msgs_aux names hlen reqs _ _ (List.length_replicate _ _)]
    rw [List.nil_append]
  · intro i hi hno
    rw [markUsed, markUsed_fst_aux names i reqs _ _ ?hq]
    · rw [List.getElem?_replicate, if_pos hi]
    case hq =>
      intro q hq hf
      have hilt : i < names.length := findIdx?_lt_length hf
      have hIdx : names.findIdx (fun n => n == q) = i :=
        (List.findIdx?_eq_some_iff_findIdx_eq.mp hf).2
      have h2 : names[names.findIdx (fun n => n == q)]? = some (names.get ⟨i, hilt⟩) := by
        rw [hIdx]
        exact List.getElem?_eq_getElem hilt
      have hp :=
        @List.findIdx_of_getElem?_eq_some Line (fun n => n == q) (names.get ⟨i, hilt⟩) names h2
      have heq : names.get ⟨i, hilt⟩ = q := by simpa using hp
      exact hno (names.get ⟨i, hilt⟩) (List.getElem?_eq_getElem hilt) (heq ▸ hq)

/-- Witness for C3: a table with two named layers, one known and two
unknown requests (one of them twice). -/
def c3demoNames : List Line :=
  (List.replicate 50 (("-").data)).set 0 (("F.Cu").data)

/-- The request list for the C3 witness. -/
def c3demoReqs : List Line := [("F.Cu").data, ("Nope").data, ("Nope").data]

/-- Witness for C3 at concrete inputs. -/
theorem c3_unknown_layer_requests_witness :
    c3demoNames.length = 50 ∧
    ((markUsed c3demoNames c3demoReqs).2 =
      (c3demoReqs.filter
        (fun q => (c3demoNames.findIdx? (fun n => n == q)).isNone)).map unknownMsg ∧
    ∀ i : Nat, i < 50 → (∀ nm, c3demoNames[i]? = some nm → nm ∉ c3demoReqs) →
      (markUsed c3demoNames c3demoReqs).1[i]? = some 0) :=
  ⟨by decide, c3_unknown_layer_requests c3demoNames c3demoReqs (by decide)⟩

/-! ## Claim C9 -/

/-- C9: the layer parse completes without the uncaught `IndexError`
precisely when every index captured from a layer line of the block is at
most 49; equivalently, it aborts (before any configuration or automation
work) exactly when some block entry has index 50 or more. -/
theorem c9_oob_index_aborts (lines : List Line) :
    parseLayers lines = none ↔ ∃ e ∈ entriesOf lines, 50 ≤ e.1 :=
  parseLayers_none_iff lines

/-- A PCB file whose layers block contains an index of 50. -/
def c9demoPcb : List Line :=
  [("  (layers").data, ("    (50 Extra signal)").data, ("  )").data]

/-- Witness for C9: the parse of that file aborts. -/
theorem c9_oob_index_aborts_witness : parseLayers c9demoPcb = none :=
  (c9_oob_index_aborts c9demoPcb).mpr (by decide)

/-! ## Claim C4 -/

/-- C4: for every subset of enabled optional components and every body
trace (normal completion, or a body truncated by an exception — the
releases run in `finally` blocks either way), the release events of the
session trace are exactly recorder, window manager, VNC server, virtual
display, in that order, restricted to the enabled components; and the
acquisition events occur in the exact reverse order, so teardown is strict
reverse of acquisition. -/
theorem c4_teardown_order (do_record do_x11vnc do_wm : Bool) (body : List SEvent)
    (hrel : ∀ e ∈ body, isRelease e = false)
    (hacq : ∀ e ∈ body, isAcquire e = false) :
    (recorded_xvfb_trace do_record do_x11vnc do_wm body).filter isRelease =
      (if do_record then [SEvent.relRec] else []) ++
      (if do_wm then [SEvent.relWm] else []) ++
      (if do_x11vnc then [SEvent.relVnc] else []) ++ [SEvent.relDisplay] ∧
    (recorded_xvfb_trace do_record do_x11vnc do_wm body).filter isAcquire =
      [SEvent.acqDisplay] ++
      (if do_x11vnc then [SEvent.acqVnc] else []) ++
      (if do_wm then [SEvent.acqWm] else []) ++
      (if do_record then [SEvent.acqRec] else []) := by
  have hb1 : body.filter isRelease = [] := by
    rw [List.filter_eq_nil_iff]
    intro e he
    simp [hrel e he]
  have hb2 : body.filter isAcquire = [] := by
    rw [List.filter_eq_nil_iff]
    intro e he
    simp [hacq e he]
  cases do_record <;> cases do_x11vnc <;> cases do_wm <;>
    simp [recorded_xvfb_trace, start_x11vnc_trace, start_wm_trace, start_record_trace,
      List.filter_append, hb1, hb2, isRelease, isAcquire]

/-- Witness for C4 at a concrete body trace with all components enabled. -/
theorem c4_teardown_order_witness :
    (∀ e ∈ [SEvent.bodyStep], isRelease e = false) ∧
    (∀ e ∈ [SEvent.bodyStep], isAcquire e = false) ∧
    ((recorded_xvfb_trace true true true [SEvent.bodyStep]).filter isRelease =
        [SEvent.relRec] ++ [SEvent.relWm] ++ [SEvent.relVnc] ++ [SEvent.relDisplay] ∧
      (recorded_xvfb_trace true true true [SEvent.bodyStep]).filter isAcquire =
        [SEvent.acqDisplay] ++ [SEvent.acqVnc] ++ [SEvent.acqWm] ++ [SEvent.acqRec]) :=
  ⟨by decide, by decide, by
    simpa using c4_teardown_order true true true [SEvent.bodyStep] (by decide) (by decide)⟩

/-! ## Claim C5 -/

/-- C5 counterexample: on the normal exit path the window manager teardown
starts with an immediate `kill`, with no `terminate` anywhere before it —
the code comments "Fluxbox sometimes will ignore SIGTERM, we can just
kill it" and skips the graceful attempt entirely. -/
theorem c5_counterexample :
    killOnlyAfterTerm (wmTeardownTrace false false) = false ∧
    (wmTeardownTrace false false).head? = some PAct.kill := by decide

/-- C5 (amended): on session exit the window manager is forcefully killed
immediately, without a graceful-termination attempt; the recorder and the
VNC server are first asked to terminate and are killed only when still
alive after the 3-second grace wait, and any process whose `with` block
exits through an exception likewise receives `terminate` before any
`kill`. -/
theorem c5_shutdown_discipline (excType aliveAfter3 : Bool) :
    (wmTeardownTrace excType aliveAfter3).head? = some PAct.kill ∧
    killOnlyAfterTerm (recorderTeardownTrace excType aliveAfter3) = true ∧
    killOnlyAfterTerm (vncTeardownTrace excType aliveAfter3) = true ∧
    (PAct.kill ∈ recorderTeardownTrace excType aliveAfter3 ↔ aliveAfter3 = true) ∧
    (PAct.kill ∈ vncTeardownTrace excType aliveAfter3 ↔ aliveAfter3 = true) ∧
    killOnlyAfterTerm (popenExitTrace true aliveAfter3) = true := by
  cases excType <;> cases aliveAfter3 <;> decide

/-! ## Claim C6 -/

/-- C6: in a polling iteration whose window search returned matches, the
code selects the first id when exactly one window matched and the second
id when more than one matched. -/
theorem c6_window_tiebreak (ids : List Nat) (_hne : ids ≠ []) :
    (ids.length = 1 → selectWindow ids = ids[0]?) ∧
    (1 < ids.length → selectWindow ids = ids[1]?) := by
  refine ⟨fun h1 => ?_, fun h2 => ?_⟩
  · simp [selectWindow, h1]
  · simp [selectWindow, h2]

/-- Witness for C6 on a concrete two-element search result. -/
theorem c6_window_tiebreak_witness :
    ([3, 7] : List Nat) ≠ [] ∧
      ((([3, 7] : List Nat).length = 1 → selectWindow [3, 7] = ([3, 7] : List Nat)[0]?) ∧
       (1 < ([3, 7] : List Nat).length → selectWindow [3, 7] = ([3, 7] : List Nat)[1]?)) :=
  ⟨by decide, c6_window_tiebreak [3, 7] (by decide)⟩

/-! ## Claim C7 -/

/-- C7: for either exit path (normal or raising), whatever content the
configuration file holds by exit time, if the flow performed the
backup-rename and wrote the generated configuration, then the exit handler
removes the configuration file and moves the backup into place, leaving
exactly the original bytes at the configuration path and no backup file. -/
theorem c7_config_restored (raised : Bool) (orig gen cur : Bytes) (fs1 : ConfigFS)
    (hb : backupStep { config := some orig, backup := none } = some fs1) :
    processExit raised { writeConfig gen fs1 with config := some cur } =
      some { config := some orig, backup := none } := by
  simp only [backupStep] at hb
  obtain rfl := Option.some_inj.mp hb
  cases raised <;> rfl

/-- Witness for C7 at concrete file contents. -/
theorem c7_config_restored_witness :
    backupStep { config := some [1], backup := none } =
        some ({ config := none, backup := some [1] } : ConfigFS) ∧
    processExit true
        { writeConfig [2] { config := none, backup := some [1] } with config := some [3] } =
      some ({ config := some [1], backup := none } : ConfigFS) :=
  ⟨by decide, c7_config_restored true [1] [2] [3] { config := none, backup := some [1] } (by decide)⟩

/-! ## Claim C8 -/

/-- When the probed condition never holds, the loop runs through all its
iterations, probing and sleeping once per iteration, and times out. -/
theorem runPollAux_never (cond : Nat → Bool) (hc : ∀ i, cond i = false) :
    ∀ n k, runPollAux cond n k = PollResult.timedOut (k + n) (k + n) := by
  intro n
  induction n with
  | zero => intro k; rfl
  | succ n ih =>
    intro k
    simp only [runPollAux, hc k, Bool.false_eq_true, if_false]
    rw [ih (k + 1)]
    congr 1 <;> omega

/-- C8: each of the three readiness polls, when its condition is never
observed, performs exactly `int(timeout/0.5)` probes, each followed by a
0.5-second sleep, and then raises the timeout error; the slept time
`int(timeout/0.5) * 0.5` is more than `timeout - 0.5` and at most
`timeout`. -/
theorem c8_poll_timeout (timeout : ℚ) (htime : 0 ≤ timeout)
    (idA idB skip_id : Nat) (focusA focusB : Nat → Nat)
    (searchAt : Nat → Option (List Nat))
    (hA : ∀ i, (focusA i == idA) = false)
    (hB : ∀ i, (focusB i != idB) = false)
    (hS : ∀ i, searchAt i = none) :
    wait_focused_model idA focusA timeout =
      PollResult.timedOut (itersFor timeout) (itersFor timeout) ∧
    wait_not_focused_model idB focusB timeout =
      PollResult.timedOut (itersFor timeout) (itersFor timeout) ∧
    wait_for_window_model searchAt skip_id timeout =
      PollResult.timedOut (itersFor timeout) (itersFor timeout) ∧
    timeout - DELAY < (itersFor timeout : ℚ) * DELAY ∧
    (itersFor timeout : ℚ) * DELAY ≤ timeout := by
  have h2t : timeout / DELAY = 2 * timeout := by
    unfold DELAY
    ring
  have hfl : (0 : ℤ) ≤ ⌊timeout / DELAY⌋ := by
    apply Int.floor_nonneg.mpr
    rw [h2t]
    linarith
  have hcast : ((itersFor timeout : ℚ)) = ((⌊timeout / DELAY⌋ : ℤ) : ℚ) := by
    unfold itersFor
    exact_mod_cast congrArg (fun z : ℤ => (z : ℚ)) (Int.toNat_of_nonneg hfl)
  have hle : ((⌊timeout / DELAY⌋ : ℤ) : ℚ) ≤ 2 * timeout := by
    rw [← h2t]
    exact Int.floor_le _
  have hlt : 2 * timeout < ((⌊timeout / DELAY⌋ : ℤ) : ℚ) + 1 := by
    rw [← h2t]
    exact Int.lt_floor_add_one _
  refine ⟨?_, ?_, ?_, ?_, ?_⟩
  · unfold wait_focused_model runPoll
    rw [runPollAux_never _ hA, Nat.zero_add]
  · unfold wait_not_focused_model runPoll
    rw [runPollAux_never _ hB, Nat.zero_add]
  · unfold wait_for_window_model runPoll
    rw [runPollAux_never _ (fun i => by rw [hS i]), Nat.zero_add]
  · rw [hcast]
    unfold DELAY
    unfold DELAY at hle hlt
    linarith
  · rw [hcast]
    unfold DELAY
    unfold DELAY at hle hlt
    linarith

/-- The focus observations of the C8 witness: the focused window is always
window 1, so waiting for window 0 to gain focus never succeeds. -/
def c8focusA : Nat → Nat := fun _ => 1

/-- The focus observations of the second C8 witness poll: the focused
window is always window 0, so waiting for window 0 to lose focus never
succeeds. -/
def c8focusB : Nat → Nat := fun _ => 0

/-- The search observations of the third C8 witness poll: the window
search always fails. -/
def c8search : Nat → Option (List Nat) := fun _ => none

/-- Witness for C8 with `timeout = 10`: 20 probes and 20 sleeps. -/
theorem c8_poll_timeout_witness :
    (0 : ℚ) ≤ 10 ∧ (∀ i, (c8focusA i == 0) = false) ∧
    (∀ i, (c8focusB i != 0) = false) ∧ (∀ i, c8search i = none) ∧
    itersFor 10 = 20 ∧
    (wait_focused_model 0 c8focusA 10 =
        PollResult.timedOut (itersFor 10) (itersFor 10) ∧
      wait_not_focused_model 0 c8focusB 10 =
        PollResult.timedOut (itersFor 10) (itersFor 10) ∧
      wait_for_window_model c8search 0 10 =
        PollResult.timedOut (itersFor 10) (itersFor 10) ∧
      (10 : ℚ) - DELAY < (itersFor 10 : ℚ) * DELAY ∧
      (itersFor 10 : ℚ) * DELAY ≤ 10) :=
  ⟨by norm_num, fun i => rfl, fun i => rfl, fun i => rfl,
   by unfold itersFor
      rw [show (10 : ℚ) / DELAY = ((20 : ℤ) : ℚ) by unfold DELAY; norm_num,
        Int.floor_intCast]
      rfl,
   c8_poll_timeout 10 (by norm_num) 0 0 0 c8focusA c8focusB c8search
     (fun i => rfl) (fun i => rfl) (fun i => rfl)⟩

/-! ## Claim C10 -/

/-- Pigeonhole: a block with fewer than 50 entries leaves some slot below
50 without any entry. -/
theorem exists_uncovered (es : List (Nat × Line)) (hlen : es.length < 50) :
    ∃ i, i < 50 ∧ lastEntryFor es i = none := by
  by_contra hno
  push_neg at hno
  have hsub : (List.range 50).toFinset ⊆ (es.map Prod.fst).toFinset := by
    intro i hi
    rw [List.mem_toFinset, List.mem_range] at hi
    rw [List.mem_toFinset, List.mem_map]
    cases hl : lastEntryFor es i with
    | none => exact absurd hl (hno i hi)
    | some e =>
      obtain ⟨hm, hif⟩ := lastEntryFor_mem hl
      exact ⟨e, hm, hif⟩
  have h50 : (List.range 50).toFinset.card = 50 := by
    rw [List.toFinset_card_of_nodup (List.nodup_range 50)]
    exact List.length_range 50
  have hge : (50 : ℕ) ≤ (es.map Prod.fst).toFinset.card := by
    rw [← h50]
    exact Finset.card_le_card hsub
  have hle2 : (es.map Prod.fst).toFinset.card ≤ (es.map Prod.fst).length :=
    List.toFinset_card_le (es.map Prod.fst)
  rw [List.length_map] at hle2
  omega

/-- C10 counterexample input: the block's single entry names its layer
literally `-`, so the placeholder and a parsed name coincide. -/
def c10cexLines : List Line :=
  [(" (layers").data, (" (0 - signal)").data, (" )").data]

/-- C10 counterexample: the table has one parsed entry (fewer than 50),
yet requesting `-` sets the flag of slot 0 — an index that does appear in
the block — and leaves slot 1, the lowest-indexed slot with no parsed
entry, at 0; so the claim's description of which slot gets the flag is
false on this input. -/
theorem c10_counterexample :
    parseLayers c10cexLines = some (List.replicate 50 (("-").data)) ∧
    (entriesOf c10cexLines).map Prod.fst = [0] ∧
    (markUsed (List.replicate 50 (("-").data)) [("-").data]).1[0]? = some 1 ∧
    (markUsed (List.replicate 50 (("-").data)) [("-").data]).1[1]? = some 0 :=
  ⟨by decide, by decide, by decide, by decide⟩

/-- C10 (amended): provided no block entry is itself named `-`, for every
successfully parsed layer table whose block has fewer than 50 entries,
requesting the layer name `-` is not reported as unknown (no message is
printed); it resolves to the lowest-indexed slot that has no parsed entry
— an index appearing nowhere in the block, every smaller index appearing
in it — sets that slot's enable flag, and `PlotLayer_i=1` is emitted for
that index. -/
theorem c10_dash_placeholder (lines : List Line) (names : List Line)
    (hp : parseLayers lines = some names)
    (hcount : (entriesOf lines).length < 50)
    (hnd : ∀ e ∈ entriesOf lines, e.2 ≠ ("-").data) :
    (markUsed names [("-").data]).2 = [] ∧
    ∃ i, i < 50 ∧
      names.findIdx? (fun n => n == ("-").data) = some i ∧
      (∀ e ∈ entriesOf lines, e.1 ≠ i) ∧
      (∀ j, j < i → ∃ e ∈ entriesOf lines, e.1 = j) ∧
      (markUsed names [("-").data]).1[i]? = some 1 ∧
      plotLine i 1 ∈ configLines (markUsed names [("-").data]).1 := by
  have hidx : ∀ e ∈ entriesOf lines, e.1 < 50 := by
    intro e he
    by_contra hge
    push_neg at hge
    have hnone : parseLayers lines = none :=
      (parseLayers_none_iff lines).mpr ⟨e, he, hge⟩
    rw [hp] at hnone
    exact absurd hnone (by simp)
  have hnames : names = applyEntries (entriesOf lines) (List.replicate 50 (("-").data)) := by
    have h2 := parseLayers_eq lines hidx
    rw [hp] at h2
    exact Option.some_inj.mp h2
  have hlen : names.length = 50 := by
    rw [hnames, applyEntries_length, List.length_replicate]
  have hget : ∀ j, j < 50 →
      names[j]? = match lastEntryFor (entriesOf lines) j with
        | some e => some e.2
        | none => some (("-").data) := by
    intro j hj
    rw [hnames, applyEntries_getElem? _ _ j (by rw [List.length_replicate]; exact hj)]
    cases lastEntryFor (entriesOf lines) j with
    | some e => rfl
    | none => rw [List.getElem?_replicate, if_pos hj]
  have hex : ∃ n, n < 50 ∧ lastEntryFor (entriesOf lines) n = none :=
    exists_uncovered _ hcount
  obtain ⟨hi50, hinone⟩ : Nat.find hex < 50 ∧
      lastEntryFor (entriesOf lines) (Nat.find hex) = none := Nat.find_spec hex
  have hcov : ∀ j, j < Nat.find hex → ∃ e ∈ entriesOf lines, e.1 = j := by
    intro j hj
    have hmin := Nat.find_min hex hj
    cases hl : lastEntryFor (entriesOf lines) j with
    | none => exact absurd ⟨by omega, hl⟩ hmin
    | some e =>
      obtain ⟨hm, hif⟩ := lastEntryFor_mem hl
      exact ⟨e, hm, hif⟩
  have hi_lt_len : Nat.find hex < names.length := by omega
  have hfIdx : names.findIdx (fun n => n == ("-").data) = Nat.find hex := by
    rw [List.findIdx_eq hi_lt_len]
    constructor
    · have hni : names[Nat.find hex]? = some (("-").data) := by
        rw [hget _ hi50, hinone]
      rw [List.getElem?_eq_getElem hi_lt_len] at hni
      have heq : names[Nat.find hex] = ("-").data := by simpa using hni
      simp [heq]
    · intro j hji
      have hj50 : j < 50 := by omega
      have hjlen : j < names.length := by omega
      cases hl : lastEntryFor (entriesOf lines) j with
      | none =>
        obtain ⟨e, hm, hif⟩ := hcov j hji
        exact absurd hif (lastEntryFor_eq_none_iff.mp hl e hm)
      | some e2 =>
        have hj2 : names[j]? = some e2.2 := by rw [hget j hj50, hl]
        rw [List.getElem?_eq_getElem hjlen] at hj2
        have heq2 : names[j] = e2.2 := by simpa using hj2
        rw [heq2]
        exact beq_eq_false_iff_ne.mpr (hnd e2 (lastEntryFor_mem hl).1)
  have hfi : names.findIdx? (fun n => n == ("-").data) = some (Nat.find hex) :=
    List.findIdx?_eq_some_iff_findIdx_eq.mpr ⟨hi_lt_len, hfIdx⟩
  have hmark : markUsed names [("-").data] = ((List.replicate 50 0).set (Nat.find hex) 1, []) := by
    unfold markUsed
    simp only [List.foldl_cons, List.foldl_nil, markStep, hfi, List.length_replicate, hi50,
      if_true]
  have hset_len : Nat.find hex < (List.replicate 50 (0 : Nat)).length := by
    rw [List.length_replicate]
    exact hi50
  have hgetD : ((List.replicate 50 (0 : Nat)).set (Nat.find hex) 1).getD (Nat.find hex) 0 = 1 := by
    rw [List.getD_eq_getElem?_getD, List.getElem?_set_self hset_len]
    rfl
  refine ⟨by rw [hmark], Nat.find hex, hi50, hfi,
    lastEntryFor_eq_none_iff.mp hinone, hcov, ?_, ?_⟩
  · rw [hmark]
    exact List.getElem?_set_self hset_len
  · rw [hmark]
    unfold configLines
    apply List.mem_append_right
    apply List.mem_map.mpr
    refine ⟨Nat.find hex, List.mem_range.mpr hi50, ?_⟩
    rw [hgetD]

/-- A PCB file for the C10 witness: two ordinary entries at indices 0 and
31, so slot 1 is the lowest slot with no parsed entry. -/
def c10demoPcb : List Line :=
  [("  (layers").data, ("    (0 F.Cu signal)").data,
   ("    (31 B.Cu signal)").data, ("  )").data]

/-- The parsed table of the C10 witness file. -/
def c10demoNames : List Line :=
  ((List.replicate 50 (("-").data)).set 0 (("F.Cu").data)).set 31 (("B.Cu").data)

/-- Witness for C10 at a concrete file. -/
theorem c10_dash_placeholder_witness :
    parseLayers c10demoPcb = some c10demoNames ∧
    (entriesOf c10demoPcb).length < 50 ∧
    (∀ e ∈ entriesOf c10demoPcb, e.2 ≠ ("-").data) ∧
    ((markUsed c10demoNames [("-").data]).2 = [] ∧
      ∃ i, i < 50 ∧
        c10demoNames.findIdx? (fun n => n == ("-").data) = some i ∧
        (∀ e ∈ entriesOf c10demoPcb, e.1 ≠ i) ∧
        (∀ j, j < i → ∃ e ∈ entriesOf c10demoPcb, e.1 = j) ∧
        (markUsed c10demoNames [("-").data]).1[i]? = some 1 ∧
        plotLine i 1 ∈ configLines (markUsed c10demoNames [("-").data]).1) :=
  ⟨by decide, by decide, by decide,
   c10_dash_placeholder c10demoPcb c10demoNames (by decide) (by decide) (by decide)⟩

end KiAuto
